import Mathlib

/-!
Shallow embedding of the cccteam/logger request-scoped logging core
(console.go, gcp.go, aws.go, the context accessor and the std fallback
logger), together with theorems checking the natural-language
specification against it.

Go `map[string]any` attribute maps are modelled as association lists
with overwrite-on-assign semantics (`mapUpsert`); Go's heap of map
objects (several logger nodes may or may not alias the same map) is
modelled explicitly as a `Store` of maps addressed by `Nat` references,
so that copy-on-derive and write-through-root behaviour are provable
facts rather than artifacts of a pure encoding.  The log sinks
themselves (stdout JSON writer, cloud logging client, ANSI console
writer), timestamps and trace-span extraction are external
collaborators per the spec and are abstracted: an emission is modelled
as the structured record handed to the sink.
-/

namespace LoggerModel

/-- Values stored in Go `map[string]any` attribute maps and passed as log
messages: strings, integers, and `error` values (carrying their
`Error()` string). -/
inductive GoVal where
  | str (s : String)
  | int (n : Int)
  | err (e : String)
  deriving DecidableEq

/-- A Go `map[string]any`, as an association list without duplicate keys
(maps built by the code below never duplicate a key). -/
abbrev AttrMap := List (String × GoVal)

/-- Go map assignment `m[k] = v`: overwrite in place if the key exists,
otherwise add the binding. -/
def mapUpsert : AttrMap → String → GoVal → AttrMap
  | [], k, v => [(k, v)]
  | (k', v') :: rest, k, v =>
      if k' = k then (k, v) :: rest else (k', v') :: mapUpsert rest k v

/-- Go map lookup `m[k]`. -/
def mapGet : AttrMap → String → Option GoVal
  | [], _ => none
  | (k', v') :: rest, k => if k' = k then some v' else mapGet rest k

/-- Go `for k, v := range src { dst[k] = v }`: fold each binding of `src`
into `dst`. -/
def mapCopyInto (dst src : AttrMap) : AttrMap :=
  src.foldl (fun d p => mapUpsert d p.1 p.2) dst

/-- The association list has no duplicated keys (true of every map the
code builds, since they only grow through `mapUpsert`). -/
def NodupKeys (m : AttrMap) : Prop := (m.map Prod.fst).Nodup

instance (m : AttrMap) : Decidable (NodupKeys m) := by
  unfold NodupKeys; infer_instance

/-- Heap of attribute-map objects: Go logger nodes hold references into
this store, so aliasing and copying are explicit. -/
structure Store where
  maps : Nat → AttrMap
  next : Nat

/-- The empty heap. -/
def Store.empty : Store := { maps := fun _ => [], next := 0 }

/-- Dereference a map. -/
def Store.get (s : Store) (r : Nat) : AttrMap := s.maps r

/-- Go `make(map[string]any)` (possibly pre-filled): allocate a fresh map
object and return its reference. -/
def Store.alloc (s : Store) (m : AttrMap) : Store × Nat :=
  ({ maps := fun r => if r = s.next then m else s.maps r, next := s.next + 1 },
   s.next)

/-- Replace the contents of the map object at `r`. -/
def Store.put (s : Store) (r : Nat) (m : AttrMap) : Store :=
  { s with maps := fun r' => if r' = r then m else s.maps r' }

/-- Go `(*mapAt r)[k] = v`. -/
def Store.write (s : Store) (r : Nat) (k : String) (v : GoVal) : Store :=
  s.put r (mapUpsert (s.get r) k v)

/-! Severity enums.  The console and GCP loggers use the Google Cloud
Logging `Severity` enum (Default 0, Debug 100, Info 200, Warning 400,
Error 500); the AWS logger uses `log/slog` levels (Debug -4, Info 0,
Warn 4, Error 8). -/

def sevDefault : Nat := 0

def sevDebug : Nat := 100

def sevInfo : Nat := 200

def sevWarning : Nat := 400

def sevError : Nat := 500

def slogLevelDebug : Int := -4

def slogLevelInfo : Int := 0

def slogLevelWarn : Int := 4

def slogLevelError : Int := 8

/-- The eight public logging methods of the `ctxLogger` interface; the
`...f` variants format their message but log at the same severity. -/
inductive LogCall where
  | debug | debugf | info | infof | warn | warnf | error | errorf

/-- Cloud logging severity used by the console and GCP loggers for each
logging method. -/
def cloudSeverity : LogCall → Nat
  | .debug | .debugf => sevDebug
  | .info | .infof => sevInfo
  | .warn | .warnf => sevWarning
  | .error | .errorf => sevError

/-- Source constant `customPrefix = "custom_"` (logger.go). -/
def customPre : String := "custom_"

/-- Source constant `parentLogEntry = "Parent Log Entry"` (logger.go). -/
def parentLogEntry : String := "Parent Log Entry"

/-- Shared reserved-key rename step: `if slices.Contains(rsvd, key) { key
= customPrefix + key }`, as inlined by every attribute-adding method. -/
def rsvdRename (rsvd : List String) (k : String) : String :=
  if rsvd.contains k then customPre ++ k else k

/-! Console backend (console.go).  One `consoleLogger` root per request;
children share the root's aggregate (`maxSeverity`, `logCount`) and the
root's `reqAttributes` map through the `root` self-reference.  The
aggregate and the root's `reqAttributes` reference are therefore kept in
the request state; each node keeps only a reference to its own
`attributes` map. -/

/-- Source constants cslReqSize, cslRespSize, cslLogCount: the console
logger's `rsvdReqKeys` list from `newConsoleLogger`. -/
def cslRsvdReqKeys : List String := ["requestSize", "responseSize", "logCount"]

/-- Request-wide mutable state of a console logger tree: the heap of
attribute maps plus the root's aggregate fields. -/
structure ConsoleSt where
  store : Store
  maxSeverity : Nat
  logCount : Nat
  reqAttrs : Nat

/-- A `consoleLogger` node: its own `attributes` map reference.  (The
`root` pointer is implicit: aggregate updates and request-attribute
writes act on the unique root state.) -/
structure ConsoleNode where
  attrs : Nat

/-- Source `newConsoleLogger`: fresh root with empty `reqAttributes` and
`attributes`, `maxSeverity` initialised to `logging.Info`, `root` set to
self. -/
def newConsoleLogger : ConsoleSt × ConsoleNode :=
  let p1 := Store.empty.alloc []
  let p2 := p1.1.alloc []
  ({ store := p2.1, maxSeverity := sevInfo, logCount := 0, reqAttrs := p1.2 },
   { attrs := p2.2 })

/-- Aggregate effect of `consoleLogger.colorPrint`: raise
`root.maxSeverity` to the call's level and bump `root.logCount`. -/
def colorPrintAgg (st : ConsoleSt) (level : Nat) : ConsoleSt :=
  { st with
    maxSeverity := if st.maxSeverity < level then level else st.maxSeverity,
    logCount := st.logCount + 1 }

/-- A child (trace) entry emitted by `consoleLogger.console`: the level
and the node's own attributes appended to the message. -/
structure ConsoleEntry where
  level : Nat
  attrs : AttrMap

/-- Source `consoleLogger.console` as called by Debug/Debugf/Info/Infof/
Warn/Warnf/Error/Errorf: append the node's attributes and print through
`colorPrint`, which mutates the root aggregate. -/
def consoleLogCall (st : ConsoleSt) (l : ConsoleNode) (c : LogCall) :
    ConsoleSt × ConsoleEntry :=
  (colorPrintAgg st (cloudSeverity c),
   { level := cloudSeverity c, attrs := st.store.get l.attrs })

/-- A handler body issuing a sequence of log calls on arbitrary nodes of
the tree. -/
def consoleRun (st : ConsoleSt) (calls : List (ConsoleNode × LogCall)) :
    ConsoleSt :=
  calls.foldl (fun s nc => (consoleLogCall s nc.1 nc.2).1) st

/-- Source `consoleLogger.AddRequestAttribute`: rename reserved keys,
then write into `l.root.reqAttributes` under the root's lock — from any
node of the tree. -/
def consoleAddRequestAttribute (st : ConsoleSt) (_l : ConsoleNode)
    (k : String) (v : GoVal) : ConsoleSt :=
  { st with
    store := st.store.write st.reqAttrs (rsvdRename cslRsvdReqKeys k) v }

/-- A `consoleAttributer`: the originating logger and the builder's own
attribute map. -/
structure ConsoleAttributer where
  logger : ConsoleNode
  attrs : Nat

/-- Source `consoleLogger.WithAttributes`: allocate a fresh map, copy the
node's own attributes into it, and return the builder. -/
def consoleWithAttributes (st : ConsoleSt) (l : ConsoleNode) :
    ConsoleSt × ConsoleAttributer :=
  let p := st.store.alloc (mapCopyInto [] (st.store.get l.attrs))
  ({ st with store := p.1 }, { logger := l, attrs := p.2 })

/-- Source `consoleAttributer.AddAttribute`: plain overwrite into the
builder's map (the console builder applies no reserved-key rename). -/
def consoleAddAttribute (st : ConsoleSt) (a : ConsoleAttributer)
    (k : String) (v : GoVal) : ConsoleSt :=
  { st with store := st.store.write a.attrs k v }

/-- Source `consoleLogger.newChild`: same root, fresh empty `attributes`,
`reqAttributes` nil (only the root's is ever used). -/
def consoleNewChild (st : ConsoleSt) (_l : ConsoleNode) :
    ConsoleSt × ConsoleNode :=
  let p := st.store.alloc []
  ({ st with store := p.1 }, { attrs := p.2 })

/-- Source `consoleAttributer.Logger`: make a child and copy the
builder's map into the child's `attributes`. -/
def consoleAttributerLogger (st : ConsoleSt) (a : ConsoleAttributer) :
    ConsoleSt × ConsoleNode :=
  let p := consoleNewChild st a.logger
  ({ p.1 with
     store := p.1.store.put p.2.attrs
       (mapCopyInto (p.1.store.get p.2.attrs) (p.1.store.get a.attrs)) },
   p.2)

/-- The parent summary line of the console middleware, reduced to the
structured facts it reports: the emitted severity, the `logCount=` token
and the request attributes appended to the line. -/
structure ConsoleParent where
  severity : Nat
  reportedLogCount : Nat
  reqAttrs : AttrMap
  rootAttrs : AttrMap

/-- Post-handler half of `consoleHandler.ServeHTTP`: read the aggregate
under lock, raise the severity to Error when the captured status exceeds
499, format the summary line (method, path, status, elapsed, sizes,
`logCount=` and the request attributes, with the root node's own
attributes appended by `l.console`), and emit it through `l.console` —
which routes through `colorPrint` and therefore bumps the root aggregate
once more after the reported values were read. -/
def consoleServeHTTPFinal (status : Int) (st : ConsoleSt) (root : ConsoleNode) :
    ConsoleParent × ConsoleSt :=
  let logCount := st.logCount
  let maxSeverity := st.maxSeverity
  let attributes := st.store.get st.reqAttrs
  let maxSeverity :=
    if 499 < status ∧ maxSeverity < sevError then sevError
    else maxSeverity
  ({ severity := maxSeverity, reportedLogCount := logCount,
     reqAttrs := attributes, rootAttrs := st.store.get root.attrs },
   (colorPrintAgg st maxSeverity))

/-! GCP backend (gcp.go).  Same tree shape as the console logger, except
that `newChild` allocates the child its own (never read) `reqAttributes`
map and `AddRequestAttribute` writes into `l.reqAttributes` — the
receiving node's own map, not `l.root.reqAttributes`. -/

/-- Source constant gcpMessageKey: the GCP logger's `rsvdKeys` list from
`newGCPLogger`, propagated unchanged to children. -/
def gcpRsvdKeys : List String := ["message"]

/-- Request-wide mutable state of a GCP logger tree: the heap plus the
root's aggregate fields. -/
structure GcpSt where
  store : Store
  maxSeverity : Nat
  logCount : Nat

/-- A `gcpLogger` node: correlation trace ID plus references to its own
`attributes` and `reqAttributes` maps.  (The root keeps the aggregate in
`GcpSt`; `reqAttrs` of the node handed to the middleware is the map the
parent entry is built from.) -/
structure GcpLogger where
  traceID : String
  attrs : Nat
  reqAttrs : Nat

/-- Source `newGCPLogger`: fresh root with empty `reqAttributes` and
`attributes`; `maxSeverity` is the zero value `logging.Default`. -/
def newGCPLogger (traceID : String) : GcpSt × GcpLogger :=
  let p1 := Store.empty.alloc []
  let p2 := p1.1.alloc []
  ({ store := p2.1, maxSeverity := sevDefault, logCount := 0 },
   { traceID := traceID, attrs := p2.2, reqAttrs := p1.2 })

/-- Source `gcpLogger.newChild`: same root and traceID, fresh empty
`attributes` and fresh empty `reqAttributes`. -/
def gcpNewChild (st : GcpSt) (l : GcpLogger) : GcpSt × GcpLogger :=
  let p1 := st.store.alloc []
  let p2 := p1.1.alloc []
  ({ st with store := p2.1 },
   { traceID := l.traceID, attrs := p2.2, reqAttrs := p1.2 })

/-- Messages carried as `any`: `gcpLogger.log` replaces an `error` value
by its `Error()` string before building the payload. -/
def gcpMsgVal : GoVal → GoVal
  | .err e => .str e
  | v => v

/-- A child entry handed to the GCP child sink: severity, trace
reference and payload map. -/
structure GcpEntry where
  severity : Nat
  trace : String
  payload : AttrMap

/-- Source `gcpLogger.log`: raise `root.maxSeverity`, bump
`root.logCount`, convert an error message to its string, copy the node's
own attributes into a fresh payload and set the `message` key last, then
emit. -/
def gcpLog (st : GcpSt) (l : GcpLogger) (severity : Nat) (msg : GoVal) :
    GcpSt × GcpEntry :=
  let st' := { st with
    maxSeverity :=
      if st.maxSeverity < severity then severity else st.maxSeverity,
    logCount := st.logCount + 1 }
  (st',
   { severity := severity, trace := l.traceID,
     payload :=
       mapUpsert (mapCopyInto [] (st.store.get l.attrs)) "message"
         (gcpMsgVal msg) })

/-- A handler body issuing a sequence of Debug/…/Errorf calls on
arbitrary nodes of the GCP tree (each with its message value). -/
def gcpRun (st : GcpSt) (calls : List (GcpLogger × LogCall × GoVal)) :
    GcpSt :=
  calls.foldl (fun s c => (gcpLog s c.1 (cloudSeverity c.2.1) c.2.2).1) st

/-- Source `gcpLogger.AddRequestAttribute`: rename reserved keys, then
write into `l.reqAttributes` — the RECEIVING node's own map (the source
does not indirect through `l.root` here). -/
def gcpAddRequestAttribute (st : GcpSt) (l : GcpLogger) (k : String)
    (v : GoVal) : GcpSt :=
  { st with store := st.store.write l.reqAttrs (rsvdRename gcpRsvdKeys k) v }

/-- A `gcpAttributer`: the originating logger and the builder's own
attribute map. -/
structure GcpAttributer where
  logger : GcpLogger
  attrs : Nat

/-- Source `gcpLogger.WithAttribute`: rename the seed key if reserved,
copy the node's attributes into a fresh map, add the seed pair, and
return the builder. -/
def gcpWithAttribute (st : GcpSt) (l : GcpLogger) (k : String) (v : GoVal) :
    GcpSt × GcpAttributer :=
  let p := st.store.alloc
    (mapUpsert (mapCopyInto [] (st.store.get l.attrs))
      (rsvdRename gcpRsvdKeys k) v)
  ({ st with store := p.1 }, { logger := l, attrs := p.2 })

/-- Source `gcpAttributer.AddAttribute`: rename reserved keys and
overwrite into the builder's map. -/
def gcpAddAttribute (st : GcpSt) (a : GcpAttributer) (k : String)
    (v : GoVal) : GcpSt :=
  { st with store := st.store.write a.attrs (rsvdRename gcpRsvdKeys k) v }

/-- Source `gcpAttributer.Logger`: make a child and copy the builder's
map into the child's `attributes`. -/
def gcpAttributerLogger (st : GcpSt) (a : GcpAttributer) :
    GcpSt × GcpLogger :=
  let p := gcpNewChild st a.logger
  ({ p.1 with
     store := p.1.store.put p.2.attrs
       (mapCopyInto (p.1.store.get p.2.attrs) (p.1.store.get a.attrs)) },
   p.2)

/-- The parent summary entry of the GCP middleware: severity, trace
reference and payload (request attributes plus the fixed message). -/
structure GcpParent where
  severity : Nat
  trace : String
  payload : AttrMap

/-- Post-handler half of `gcpHandler.ServeHTTP`: read the aggregate and a
copy of the root's `reqAttributes` under lock; skip emission when
`!logAll && logCount == 0`; otherwise raise the severity to Error when
the status exceeds 399, set the fixed parent message, and emit exactly
one entry. -/
def gcpServeHTTPFinal (logAll : Bool) (status : Int) (st : GcpSt)
    (root : GcpLogger) : Option GcpParent :=
  let logCount := st.logCount
  let maxSeverity := st.maxSeverity
  let attributes := mapCopyInto [] (st.store.get root.reqAttrs)
  if !logAll ∧ logCount = 0 then none
  else
    let maxSeverity :=
      if 399 < status ∧ maxSeverity < sevError then sevError else maxSeverity
    some { severity := maxSeverity, trace := root.traceID,
           payload := mapUpsert attributes "message" (.str parentLogEntry) }

/-- Source `gcpTraceIDFromRequest` operates on: the validity of the span
context found in the request context, its trace ID, and the result of
the legacy `X-Cloud-Trace-Context` propagation-header parse.  The random
fallback generator is passed in as `idgen`, mirroring the source. -/
structure TraceRequest where
  scValid : Bool
  scTraceID : String
  legacy : Option String

/-- Source `gcpTraceIDFromRequest`: trace ID from the span context when
valid, else from the legacy propagation header when present, else from
the generator; formatted as a GCP trace resource name. -/
def gcpTraceIDFromRequest (r : TraceRequest) (projectID : String)
    (idgen : String) : String :=
  let traceID :=
    if r.scValid then r.scTraceID
    else
      match r.legacy with
      | some t => t
      | none => idgen
  "projects/" ++ projectID ++ "/traces/" ++ traceID

/-! AWS backend (aws.go).  Identical tree shape; severities are `slog`
levels (`Int`), the aggregate fields are `maxLevel`/`logCount`, and —
like the GCP logger — `AddRequestAttribute` writes into the receiving
node's own `reqAttributes` map. -/

/-- Source `rsvdKeys` of `newAWSLogger` (child-log reserved keys). -/
def awsRsvdKeys : List String := ["trace_id", "span_id"]

/-- Source `rsvdReqKeys` of `newAWSLogger` (request-log reserved keys). -/
def awsRsvdReqKeys : List String :=
  ["trace_id", "span_id", "http.elapsed", "http.method", "http.url",
   "http.status_code", "http.response.length", "http.user_agent",
   "http.remote_ip", "http.scheme", "http.proto"]

/-- Request-wide mutable state of an AWS logger tree. -/
structure AwsSt where
  store : Store
  maxLevel : Int
  logCount : Nat

/-- An `awsLogger` node. -/
structure AwsLogger where
  traceID : String
  attrs : Nat
  reqAttrs : Nat

/-- Source `newAWSLogger`: fresh root with empty maps; `maxLevel` is the
zero value `slog.LevelInfo`. -/
def newAWSLogger (traceID : String) : AwsSt × AwsLogger :=
  let p1 := Store.empty.alloc []
  let p2 := p1.1.alloc []
  ({ store := p2.1, maxLevel := slogLevelInfo, logCount := 0 },
   { traceID := traceID, attrs := p2.2, reqAttrs := p1.2 })

/-- slog level used by the AWS logger for each logging method. -/
def slogLevel : LogCall → Int
  | .debug | .debugf => slogLevelDebug
  | .info | .infof => slogLevelInfo
  | .warn | .warnf => slogLevelWarn
  | .error | .errorf => slogLevelError

/-- Source `awsLogger.log`: raise `parent.maxLevel`, bump
`parent.logCount`, then emit trace/span plus the node's own attributes. -/
def awsLog (st : AwsSt) (_l : AwsLogger) (level : Int) : AwsSt :=
  { st with
    maxLevel := if st.maxLevel < level then level else st.maxLevel,
    logCount := st.logCount + 1 }

/-- A handler body issuing a sequence of log calls on the AWS tree. -/
def awsRun (st : AwsSt) (calls : List (AwsLogger × LogCall)) : AwsSt :=
  calls.foldl (fun s c => awsLog s c.1 (slogLevel c.2)) st

/-- Source `awsLogger.AddRequestAttribute`: rename reserved keys, then
write into `l.reqAttributes` — the receiving node's own map. -/
def awsAddRequestAttribute (st : AwsSt) (l : AwsLogger) (k : String)
    (v : GoVal) : AwsSt :=
  { st with store := st.store.write l.reqAttrs (rsvdRename awsRsvdReqKeys k) v }

/-- The parent summary entry of the AWS middleware: the emitted level and
the request attributes appended to the structured record. -/
structure AwsParent where
  level : Int
  reqAttrs : AttrMap

/-- Post-handler half of `awsHandler.ServeHTTP`: read the aggregate and
the root's `reqAttributes` under lock; skip emission when `!logAll &&
logCount == 0`; otherwise raise the level to `slog.LevelError` when the
status exceeds 399 and emit exactly one entry. -/
def awsServeHTTPFinal (logAll : Bool) (status : Int) (st : AwsSt)
    (root : AwsLogger) : Option AwsParent :=
  let logCount := st.logCount
  let maxLevel := st.maxLevel
  let attributes := st.store.get root.reqAttrs
  if !logAll ∧ logCount = 0 then none
  else
    let maxLevel :=
      if 399 < status ∧ maxLevel < slogLevelError then slogLevelError
      else maxLevel
    some { level := maxLevel, reqAttrs := attributes }

/-! Context accessor (context.go) and stderr fallback (std.go). -/

/-- What `ctx.Value(logKey)` can yield: a stored `ctxLogger` (identified
abstractly), or a value of another type (failing the type assertion). -/
inductive CtxVal where
  | lg (l : Nat)
  | nonLogger

/-- A Go `context.Context` as seen by `fromCtx`: the nil interface, or a
context whose value at `logKey` is absent or present. -/
inductive GoCtx where
  | nilCtx
  | ctx (value : Option CtxVal)

/-- A Go `*http.Request` as seen by `fromReq`: nil, or a request carrying
its context. -/
inductive GoReq where
  | nilReq
  | req (c : GoCtx)

/-- What the context accessor hands back: the logger stored in the
context, or a fresh `stdErrLogger` writing directly to stderr (not
aggregated, not trace-tagged — `newStdErrLogger`). -/
inductive FetchedLogger where
  | stored (l : Nat)
  | stdErr

/-- Source `fromCtx`: nil context or missing/non-logger value falls back
to `newStdErrLogger()`; otherwise the stored logger is returned. -/
def fromCtx : GoCtx → FetchedLogger
  | .nilCtx => .stdErr
  | .ctx none => .stdErr
  | .ctx (some .nonLogger) => .stdErr
  | .ctx (some (.lg l)) => .stored l

/-- Source `fromReq`: nil request falls back to `newStdErrLogger()`;
otherwise delegate to `fromCtx` on the request's context. -/
def fromReq : GoReq → FetchedLogger
  | .nilReq => .stdErr
  | .req c => fromCtx c

/-- Source `newContext`: a copy of the parent context carrying the
logger under `logKey`. -/
def newContext (_c : GoCtx) (l : Nat) : GoCtx := .ctx (some (.lg l))

/-! Helper lemmas about the run semantics and the heap. -/

/-- Maximum of a list of cloud severities (0, the `Default` baseline,
for the empty list). -/
def listMaxNat (l : List Nat) : Nat := l.foldr max 0

/-- Maximum of a list of slog levels (`LevelDebug`, the least level the
methods can pass, for the empty list). -/
def listMaxSlog (l : List Int) : Int := l.foldr max slogLevelDebug

/-- Repeated map writes through a reference, with a key transform `f`
(identity for the console builder, reserved-key rename for the GCP
builder). -/
def Store.writeList (s : Store) (r : Nat) (f : String → String)
    (ps : List (String × GoVal)) : Store :=
  ps.foldl (fun s p => s.write r (f p.1) p.2) s

theorem mapGet_mapUpsert_self (m : AttrMap) (k : String) (v : GoVal) :
    mapGet (mapUpsert m k v) k = some v := by
  induction m with
  | nil => simp [mapUpsert, mapGet]
  | cons p rest ih =>
      obtain ⟨pk, pv⟩ := p
      by_cases h : pk = k
      · simp [mapUpsert, mapGet, h]
      · simp [mapUpsert, mapGet, h, ih]

theorem mapGet_mapUpsert_ne (m : AttrMap) (k k' : String) (v : GoVal)
    (h : k' ≠ k) : mapGet (mapUpsert m k v) k' = mapGet m k' := by
  have hkk : ¬ (k = k') := fun hh => h hh.symm
  induction m with
  | nil => simp [mapUpsert, mapGet, hkk]
  | cons p rest ih =>
      obtain ⟨pk, pv⟩ := p
      by_cases hp : pk = k
      · subst hp
        simp [mapUpsert, mapGet, hkk]
      · by_cases hp' : pk = k'
        · simp [mapUpsert, mapGet, hp, hp', h]
        · simp [mapUpsert, mapGet, hp, hp', ih]

theorem mapUpsert_mapUpsert_same (m : AttrMap) (k : String) (v₁ v₂ : GoVal) :
    mapUpsert (mapUpsert m k v₁) k v₂ = mapUpsert m k v₂ := by
  induction m with
  | nil => simp [mapUpsert]
  | cons p rest ih =>
      obtain ⟨pk, pv⟩ := p
      by_cases h : pk = k
      · simp [mapUpsert, h]
      · simp [mapUpsert, h, ih]

theorem keys_mapUpsert_of_mem (m : AttrMap) (k : String) (v : GoVal)
    (h : k ∈ m.map Prod.fst) :
    (mapUpsert m k v).map Prod.fst = m.map Prod.fst := by
  induction m with
  | nil => simp at h
  | cons p rest ih =>
      by_cases hp : p.1 = k
      · simp [mapUpsert, hp]
      · have : k ∈ rest.map Prod.fst := by
          rcases (by simpa using h) with h1 | h1
          · exact absurd h1.symm hp
          · simpa using h1
        simp [mapUpsert, hp, ih this]

theorem keys_mapUpsert_of_not_mem (m : AttrMap) (k : String) (v : GoVal)
    (h : k ∉ m.map Prod.fst) :
    (mapUpsert m k v).map Prod.fst = m.map Prod.fst ++ [k] := by
  induction m with
  | nil => simp [mapUpsert]
  | cons p rest ih =>
      have hp : p.1 ≠ k := by
        intro hc; exact h (by simp [hc])
      have hr : k ∉ rest.map Prod.fst := by
        intro hc; exact h (by simp [hc])
      simp [mapUpsert, hp, ih hr]

theorem nodupKeys_mapUpsert (m : AttrMap) (k : String) (v : GoVal)
    (h : NodupKeys m) : NodupKeys (mapUpsert m k v) := by
  by_cases hk : k ∈ m.map Prod.fst
  · unfold NodupKeys
    rw [keys_mapUpsert_of_mem m k v hk]
    exact h
  · unfold NodupKeys
    rw [keys_mapUpsert_of_not_mem m k v hk]
    simpa [List.nodup_append] using And.intro h hk

theorem foldl_mapUpsert_cons (rest : List (String × GoVal)) (acc : AttrMap)
    (k : String) (v : GoVal) (h : ∀ p ∈ rest, p.1 ≠ k) :
    rest.foldl (fun d p => mapUpsert d p.1 p.2) ((k, v) :: acc)
      = (k, v) :: rest.foldl (fun d p => mapUpsert d p.1 p.2) acc := by
  induction rest generalizing acc with
  | nil => rfl
  | cons q qs ih =>
      have hq : q.1 ≠ k := h q (by simp)
      have hqk : ¬ (k = q.1) := fun hh => hq hh.symm
      have hqs : ∀ p ∈ qs, p.1 ≠ k := fun p hp => h p (by simp [hp])
      have step : mapUpsert ((k, v) :: acc) q.1 q.2
          = (k, v) :: mapUpsert acc q.1 q.2 := by
        simp [mapUpsert, hqk]
      simp only [List.foldl_cons, step]
      exact ih (mapUpsert acc q.1 q.2) hqs

/-- Copying a duplicate-free map into an empty one reproduces it. -/
theorem mapCopyInto_nil (m : AttrMap) (h : NodupKeys m) :
    mapCopyInto [] m = m := by
  induction m with
  | nil => rfl
  | cons p rest ih =>
      unfold NodupKeys at h
      rw [List.map_cons] at h
      have h12 := List.nodup_cons.mp h
      have hrest : NodupKeys rest := h12.2
      have hni : ∀ q ∈ rest, q.1 ≠ p.1 := by
        intro q hq hc
        exact h12.1 (List.mem_map.mpr ⟨q, hq, hc⟩)
      unfold mapCopyInto
      simp only [List.foldl_cons]
      have hu : mapUpsert [] p.1 p.2 = [(p.1, p.2)] := rfl
      rw [hu, foldl_mapUpsert_cons rest [] p.1 p.2 hni]
      unfold mapCopyInto at ih
      rw [ih hrest]

theorem nodupKeys_foldl_mapUpsert (ps : List (String × GoVal)) (m : AttrMap)
    (f : String → String) (h : NodupKeys m) :
    NodupKeys (ps.foldl (fun d p => mapUpsert d (f p.1) p.2) m) := by
  induction ps generalizing m with
  | nil => exact h
  | cons q qs ih =>
      exact ih (mapUpsert m (f q.1) q.2) (nodupKeys_mapUpsert m (f q.1) q.2 h)

theorem Store.get_alloc_self (s : Store) (m : AttrMap) :
    (s.alloc m).1.get (s.alloc m).2 = m := by
  simp [Store.alloc, Store.get]

theorem Store.get_alloc_ne (s : Store) (m : AttrMap) (r : Nat)
    (h : r ≠ s.next) : (s.alloc m).1.get r = s.get r := by
  simp [Store.alloc, Store.get, h]

theorem Store.next_alloc (s : Store) (m : AttrMap) :
    (s.alloc m).1.next = s.next + 1 := rfl

theorem Store.alloc_snd (s : Store) (m : AttrMap) :
    (s.alloc m).2 = s.next := rfl

theorem Store.get_put_self (s : Store) (r : Nat) (m : AttrMap) :
    (s.put r m).get r = m := by
  simp [Store.put, Store.get]

theorem Store.get_put_ne (s : Store) (r r' : Nat) (m : AttrMap)
    (h : r' ≠ r) : (s.put r m).get r' = s.get r' := by
  simp [Store.put, Store.get, h]

theorem Store.next_put (s : Store) (r : Nat) (m : AttrMap) :
    (s.put r m).next = s.next := rfl

theorem Store.get_write_self (s : Store) (r : Nat) (k : String) (v : GoVal) :
    (s.write r k v).get r = mapUpsert (s.get r) k v :=
  Store.get_put_self s r (mapUpsert (s.get r) k v)

theorem Store.get_write_ne (s : Store) (r r' : Nat) (k : String) (v : GoVal)
    (h : r' ≠ r) : (s.write r k v).get r' = s.get r' :=
  Store.get_put_ne s r r' (mapUpsert (s.get r) k v) h

theorem Store.next_write (s : Store) (r : Nat) (k : String) (v : GoVal) :
    (s.write r k v).next = s.next := rfl

theorem raiseNat_eq_max (a b : Nat) : (if a < b then b else a) = max a b := by
  by_cases h : a < b <;> simp [h] <;> omega

theorem ite_and_raise_nat (c : Prop) [Decidable c] (ms b : Nat) :
    (if c ∧ ms < b then b else ms) = if c then max ms b else ms := by
  by_cases hc : c
  · by_cases h2 : ms < b
    · simp only [hc, h2, and_self, if_true, true_and]
      omega
    · simp only [hc, h2, and_false, if_false, if_true, true_and]
      omega
  · simp [hc]

theorem ite_and_raise_int (c : Prop) [Decidable c] (ms b : Int) :
    (if c ∧ ms < b then b else ms) = if c then max ms b else ms := by
  by_cases hc : c
  · by_cases h2 : ms < b
    · simp only [hc, h2, and_self, if_true, true_and]
      omega
    · simp only [hc, h2, and_false, if_false, if_true, true_and]
      omega
  · simp [hc]

theorem raiseInt_eq_max (a b : Int) : (if a < b then b else a) = max a b := by
  by_cases h : a < b <;> simp [h] <;> omega

theorem consoleRun_logCount (calls : List (ConsoleNode × LogCall))
    (st : ConsoleSt) :
    (consoleRun st calls).logCount = st.logCount + calls.length := by
  induction calls generalizing st with
  | nil => simp [consoleRun]
  | cons c cs ih =>
      have := ih ((consoleLogCall st c.1 c.2).1)
      simp only [consoleRun, List.foldl_cons] at this ⊢
      rw [this]
      simp [consoleLogCall, colorPrintAgg]
      omega

theorem gcpRun_logCount (calls : List (GcpLogger × LogCall × GoVal))
    (st : GcpSt) :
    (gcpRun st calls).logCount = st.logCount + calls.length := by
  induction calls generalizing st with
  | nil => simp [gcpRun]
  | cons c cs ih =>
      have := ih ((gcpLog st c.1 (cloudSeverity c.2.1) c.2.2).1)
      simp only [gcpRun, List.foldl_cons] at this ⊢
      rw [this]
      simp [gcpLog]
      omega

theorem awsRun_logCount (calls : List (AwsLogger × LogCall)) (st : AwsSt) :
    (awsRun st calls).logCount = st.logCount + calls.length := by
  induction calls generalizing st with
  | nil => simp [awsRun]
  | cons c cs ih =>
      have := ih (awsLog st c.1 (slogLevel c.2))
      simp only [awsRun, List.foldl_cons] at this ⊢
      rw [this]
      simp [awsLog]
      omega

theorem consoleRun_maxSeverity (calls : List (ConsoleNode × LogCall))
    (st : ConsoleSt) :
    (consoleRun st calls).maxSeverity
      = max st.maxSeverity (listMaxNat (calls.map fun c => cloudSeverity c.2)) := by
  induction calls generalizing st with
  | nil => simp [consoleRun, listMaxNat]
  | cons c cs ih =>
      have h1 := ih ((consoleLogCall st c.1 c.2).1)
      simp only [consoleRun, List.foldl_cons] at h1 ⊢
      rw [h1]
      simp only [consoleLogCall, colorPrintAgg, listMaxNat, List.map_cons,
        List.foldr_cons, raiseNat_eq_max]
      omega

theorem gcpRun_maxSeverity (calls : List (GcpLogger × LogCall × GoVal))
    (st : GcpSt) :
    (gcpRun st calls).maxSeverity
      = max st.maxSeverity
          (listMaxNat (calls.map fun c => cloudSeverity c.2.1)) := by
  induction calls generalizing st with
  | nil => simp [gcpRun, listMaxNat]
  | cons c cs ih =>
      have h1 := ih ((gcpLog st c.1 (cloudSeverity c.2.1) c.2.2).1)
      simp only [gcpRun, List.foldl_cons] at h1 ⊢
      rw [h1]
      simp only [gcpLog, listMaxNat, List.map_cons, List.foldr_cons,
        raiseNat_eq_max]
      omega

theorem awsRun_maxLevel (calls : List (AwsLogger × LogCall)) (st : AwsSt)
    (h : slogLevelDebug ≤ st.maxLevel) :
    (awsRun st calls).maxLevel
      = max st.maxLevel (listMaxSlog (calls.map fun c => slogLevel c.2)) := by
  induction calls generalizing st with
  | nil =>
      simp only [awsRun, List.foldl_nil, List.map_nil, listMaxSlog,
        List.foldr_nil]
      omega
  | cons c cs ih =>
      have hlev : slogLevelDebug ≤ slogLevel c.2 := by
        cases c.2 <;> simp [slogLevel, slogLevelDebug, slogLevelInfo,
          slogLevelWarn, slogLevelError]
      have hstep : slogLevelDebug ≤ (awsLog st c.1 (slogLevel c.2)).maxLevel := by
        simp only [awsLog, raiseInt_eq_max]
        omega
      have h1 := ih (awsLog st c.1 (slogLevel c.2)) hstep
      simp only [awsRun, List.foldl_cons] at h1 ⊢
      rw [h1]
      simp only [awsLog, listMaxSlog, List.map_cons, List.foldr_cons,
        raiseInt_eq_max]
      omega

theorem consoleRun_mono (calls : List (ConsoleNode × LogCall))
    (st : ConsoleSt) :
    st.maxSeverity ≤ (consoleRun st calls).maxSeverity := by
  rw [consoleRun_maxSeverity]
  omega

theorem gcpRun_mono (calls : List (GcpLogger × LogCall × GoVal))
    (st : GcpSt) : st.maxSeverity ≤ (gcpRun st calls).maxSeverity := by
  rw [gcpRun_maxSeverity]
  omega

theorem awsRun_mono (calls : List (AwsLogger × LogCall)) (st : AwsSt) :
    st.maxLevel ≤ (awsRun st calls).maxLevel := by
  induction calls generalizing st with
  | nil => simp [awsRun]
  | cons c cs ih =>
      have h1 := ih (awsLog st c.1 (slogLevel c.2))
      simp only [awsRun, List.foldl_cons] at h1 ⊢
      have : st.maxLevel ≤ (awsLog st c.1 (slogLevel c.2)).maxLevel := by
        simp only [awsLog, raiseInt_eq_max]
        omega
      omega

theorem Store.get_writeList_self (ps : List (String × GoVal)) (s : Store)
    (r : Nat) (f : String → String) :
    (s.writeList r f ps).get r
      = ps.foldl (fun m p => mapUpsert m (f p.1) p.2) (s.get r) := by
  induction ps generalizing s with
  | nil => rfl
  | cons q qs ih =>
      simp only [Store.writeList, List.foldl_cons] at ih ⊢
      rw [ih, Store.get_write_self]

theorem Store.get_writeList_ne (ps : List (String × GoVal)) (s : Store)
    (r r' : Nat) (f : String → String) (h : r' ≠ r) :
    (s.writeList r f ps).get r' = s.get r' := by
  induction ps generalizing s with
  | nil => rfl
  | cons q qs ih =>
      simp only [Store.writeList, List.foldl_cons] at ih ⊢
      rw [ih, Store.get_write_ne _ _ _ _ _ h]

theorem Store.next_writeList (ps : List (String × GoVal)) (s : Store)
    (r : Nat) (f : String → String) :
    (s.writeList r f ps).next = s.next := by
  induction ps generalizing s with
  | nil => rfl
  | cons q qs ih =>
      simp only [Store.writeList, List.foldl_cons] at ih ⊢
      rw [ih]
      rfl

theorem consoleAdds_eq (ps : List (String × GoVal)) (st : ConsoleSt)
    (a : ConsoleAttributer) :
    ps.foldl (fun s p => consoleAddAttribute s a p.1 p.2) st
      = { st with store := st.store.writeList a.attrs (fun k => k) ps } := by
  induction ps generalizing st with
  | nil => rfl
  | cons q qs ih =>
      simp only [List.foldl_cons]
      rw [ih]
      rfl

theorem gcpAdds_eq (ps : List (String × GoVal)) (st : GcpSt)
    (a : GcpAttributer) :
    ps.foldl (fun s p => gcpAddAttribute s a p.1 p.2) st
      = { st with
          store := st.store.writeList a.attrs (rsvdRename gcpRsvdKeys) ps } := by
  induction ps generalizing st with
  | nil => rfl
  | cons q qs ih =>
      simp only [List.foldl_cons]
      rw [ih]
      rfl

/-! Claim theorems. -/

/-- C1: after any sequence of N Debug/Debugf/Info/Infof/Warn/Warnf/Error/
Errorf calls on the root or on any children of a request's logger tree,
the root's aggregate `logCount` equals N (console, GCP and AWS
backends), and the parent summary emission is not counted in the
`logCount` the parent entry reports: the console middleware reads
`logCount` before emitting (so the summary line reports exactly N even
though its own emission passes through `colorPrint`), and the GCP and
AWS middlewares emit directly through the sink without touching the
aggregate. -/
theorem logCount_counts_exactly_the_calls
    (ccalls : List (ConsoleNode × LogCall))
    (gcalls : List (GcpLogger × LogCall × GoVal))
    (acalls : List (AwsLogger × LogCall)) (status : Int) (t : String) :
    (consoleRun newConsoleLogger.1 ccalls).logCount = ccalls.length
    ∧ (consoleServeHTTPFinal status (consoleRun newConsoleLogger.1 ccalls)
        newConsoleLogger.2).1.reportedLogCount = ccalls.length
    ∧ (gcpRun (newGCPLogger t).1 gcalls).logCount = gcalls.length
    ∧ (awsRun (newAWSLogger t).1 acalls).logCount = acalls.length := by
  refine ⟨?_, ?_, ?_, ?_⟩
  · rw [consoleRun_logCount]
    exact Nat.zero_add _
  · simp only [consoleServeHTTPFinal]
    rw [consoleRun_logCount]
    exact Nat.zero_add _
  · rw [gcpRun_logCount]
    exact Nat.zero_add _
  · rw [awsRun_logCount]
    exact Nat.zero_add _

/-- C2 counterexample: a single `Debug` call on a fresh console root
leaves `maxSeverity` at the baseline `logging.Info` (200), which is not
the maximum severity among the calls (`Debug` = 100) — the claim's
"maxSeverity equals the maximum severity among the N calls" fails on
the console backend, whose baseline is `Info`, not the bottom of the
severity order. -/
theorem maxSeverity_debug_call_stays_at_info_baseline :
    (consoleRun newConsoleLogger.1
        [(newConsoleLogger.2, LogCall.debug)]).maxSeverity = sevInfo
    ∧ cloudSeverity LogCall.debug = sevDebug
    ∧ sevInfo ≠ sevDebug := by
  refine ⟨rfl, rfl, by decide⟩

/-- C2 amended: after any sequence of log calls on a root or its
children, the root's `maxSeverity` equals the maximum of the backend's
baseline (Info for the console logger, the zero value Default for GCP,
the zero value `slog.LevelInfo` for AWS) and the severities of the
calls — so it equals the baseline when no calls were made — and it is
monotonically non-decreasing across the sequence. -/
theorem maxSeverity_equals_baseline_max_calls
    (ccalls : List (ConsoleNode × LogCall))
    (gcalls : List (GcpLogger × LogCall × GoVal))
    (acalls : List (AwsLogger × LogCall)) (t : String) :
    (consoleRun newConsoleLogger.1 ccalls).maxSeverity
      = max sevInfo (listMaxNat (ccalls.map fun c => cloudSeverity c.2))
    ∧ (gcpRun (newGCPLogger t).1 gcalls).maxSeverity
      = max sevDefault (listMaxNat (gcalls.map fun c => cloudSeverity c.2.1))
    ∧ (awsRun (newAWSLogger t).1 acalls).maxLevel
      = max slogLevelInfo (listMaxSlog (acalls.map fun c => slogLevel c.2))
    ∧ (∀ st cs, st.maxSeverity ≤ (consoleRun st cs).maxSeverity)
    ∧ (∀ st cs, st.maxSeverity ≤ (gcpRun st cs).maxSeverity)
    ∧ (∀ st cs, st.maxLevel ≤ (awsRun st cs).maxLevel) := by
  refine ⟨?_, ?_, ?_, fun st cs => consoleRun_mono cs st,
    fun st cs => gcpRun_mono cs st, fun st cs => awsRun_mono cs st⟩
  · rw [consoleRun_maxSeverity]
    exact rfl
  · rw [gcpRun_maxSeverity]
    exact rfl
  · have h : slogLevelDebug ≤ (newAWSLogger t).1.maxLevel := by
      show slogLevelDebug ≤ slogLevelInfo
      decide
    rw [awsRun_maxLevel acalls (newAWSLogger t).1 h]
    exact rfl

/-- C8: the GCP correlation ID is always the string
`projects/<projectID>/traces/<traceID>`, with the trace ID taken from
the request's span context when valid, else from the legacy propagation
header when present, else from the locally generated value; the root
stores it, children inherit it unchanged, and every child entry and the
parent entry carry it. -/
theorem gcp_correlation_id_format_and_propagation
    (r : TraceRequest) (p g t : String) (st : GcpSt) (l : GcpLogger)
    (sev : Nat) (msg : GoVal) (status : Int) :
    gcpTraceIDFromRequest r p g
      = "projects/" ++ p ++ "/traces/"
        ++ (if r.scValid then r.scTraceID else r.legacy.getD g)
    ∧ ((newGCPLogger t).2).traceID = t
    ∧ ((gcpNewChild st l).2).traceID = l.traceID
    ∧ ((gcpLog st l sev msg).2).trace = l.traceID
    ∧ (gcpServeHTTPFinal true status st l).map GcpParent.trace
        = some l.traceID := by
  refine ⟨?_, rfl, rfl, rfl, ?_⟩
  · cases hl : r.legacy <;> simp [gcpTraceIDFromRequest, hl]
  · simp [gcpServeHTTPFinal]

/-- C9: `fromCtx` returns the logger stored in the context when one is
present, and the direct stderr fallback logger when the context is nil,
holds no value at the key, or holds a value that is not a `ctxLogger`;
`fromReq` delegates to `fromCtx` on the request's context and returns
the fallback for a nil request; the accessor is total — it never
returns an error, only a logger. -/
theorem fromCtx_fromReq_fallback_behaviour (c : GoCtx) (l : Nat) :
    fromCtx (newContext c l) = .stored l
    ∧ fromCtx .nilCtx = .stdErr
    ∧ fromCtx (.ctx none) = .stdErr
    ∧ fromCtx (.ctx (some .nonLogger)) = .stdErr
    ∧ fromReq .nilReq = .stdErr
    ∧ (∀ c', fromReq (.req c') = fromCtx c')
    ∧ (∀ c', fromCtx c' = .stdErr ∨ ∃ i, fromCtx c' = .stored i) := by
  refine ⟨rfl, rfl, rfl, rfl, rfl, fun c' => rfl, fun c' => ?_⟩
  rcases c' with _ | v
  · exact Or.inl rfl
  · rcases v with _ | v
    · exact Or.inl rfl
    · rcases v with i | _
      · exact Or.inr ⟨i, rfl⟩
      · exact Or.inl rfl

/-- C10: every GCP child entry's payload maps `message` to exactly the
logged message (error values converted to their `Error()` string): the
message key is written into the payload after the node's attributes are
merged, and the `AddAttribute`/`WithAttribute` rename policy stores a
user attribute named `message` under `custom_message`, leaving the
`message` binding untouched. -/
theorem gcp_payload_message_is_the_logged_message
    (st : GcpSt) (l : GcpLogger) (sev : Nat) (msg : GoVal)
    (a : GcpAttributer) (v : GoVal) (e : String) :
    mapGet ((gcpLog st l sev msg).2.payload) "message" = some (gcpMsgVal msg)
    ∧ gcpMsgVal (.err e) = .str e
    ∧ rsvdRename gcpRsvdKeys "message" = "custom_message"
    ∧ mapGet ((gcpAddAttribute st a "message" v).store.get a.attrs)
        "custom_message" = some v
    ∧ mapGet ((gcpAddAttribute st a "message" v).store.get a.attrs) "message"
        = mapGet (st.store.get a.attrs) "message"
    ∧ mapGet (((gcpWithAttribute st l "message" v).1).store.get
        ((gcpWithAttribute st l "message" v).2).attrs) "custom_message"
        = some v := by
  refine ⟨?_, rfl, by decide, ?_, ?_, ?_⟩
  · exact mapGet_mapUpsert_self ..
  · simp only [gcpAddAttribute]
    rw [Store.get_write_self]
    have hr : rsvdRename gcpRsvdKeys "message" = "custom_message" := by decide
    rw [hr]
    exact mapGet_mapUpsert_self ..
  · simp only [gcpAddAttribute]
    rw [Store.get_write_self]
    have hr : rsvdRename gcpRsvdKeys "message" = "custom_message" := by decide
    rw [hr]
    exact mapGet_mapUpsert_ne _ _ _ _ (by decide)
  · simp only [gcpWithAttribute]
    rw [Store.get_alloc_self]
    have hr : rsvdRename gcpRsvdKeys "message" = "custom_message" := by decide
    rw [hr]
    exact mapGet_mapUpsert_self ..

/-- C3 counterexample: on the console backend a request that captured
status 400 (which is greater than 399) with aggregate severity Info
emits the parent entry at severity Info (200), strictly below Error
(500) — console.go raises the severity floor only for status > 499, not
status > 399 as the claim states for every backend. -/
theorem console_status_400_does_not_force_error :
    (399 : Int) < 400
    ∧ (consoleServeHTTPFinal 400
        (consoleRun newConsoleLogger.1 [(newConsoleLogger.2, LogCall.info)])
        newConsoleLogger.2).1.severity = sevInfo
    ∧ sevInfo < sevError := by
  refine ⟨by decide, rfl, by decide⟩

/-- C3 amended: the status-forced severity floor is backend-specific —
the GCP and AWS middlewares raise the emitted severity to at least
Error when the captured status exceeds 399, while the console
middleware does so only when the status exceeds 499; at or below the
backend's threshold the emitted severity equals the aggregate
maxSeverity. -/
theorem status_threshold_forces_error_severity (status : Int)
    (cst : ConsoleSt) (croot : ConsoleNode) (gst : GcpSt) (groot : GcpLogger)
    (ast : AwsSt) (aroot : AwsLogger) :
    (consoleServeHTTPFinal status cst croot).1.severity
      = (if 499 < status then max cst.maxSeverity sevError
         else cst.maxSeverity)
    ∧ gcpServeHTTPFinal true status gst groot
      = some { severity := if 399 < status then max gst.maxSeverity sevError
                           else gst.maxSeverity,
               trace := groot.traceID,
               payload := mapUpsert
                 (mapCopyInto [] (gst.store.get groot.reqAttrs)) "message"
                 (.str parentLogEntry) }
    ∧ awsServeHTTPFinal true status ast aroot
      = some { level := if 399 < status then max ast.maxLevel slogLevelError
                        else ast.maxLevel,
               reqAttrs := ast.store.get aroot.reqAttrs } := by
  refine ⟨?_, ?_, ?_⟩
  · simp only [consoleServeHTTPFinal]
    exact ite_and_raise_nat _ _ _
  · have hgate : ¬((!(true : Bool)) = true ∧ gst.logCount = 0) := by simp
    simp only [gcpServeHTTPFinal]
    rw [if_neg hgate, ite_and_raise_nat]
  · have hgate : ¬((!(true : Bool)) = true ∧ ast.logCount = 0) := by simp
    simp only [awsServeHTTPFinal]
    rw [if_neg hgate, ite_and_raise_int]

/-- C4: evaluating gcp.go at the failing input — derive a child via
`WithAttribute("k","v").Logger()` from a fresh root and call
`AddRequestAttribute("a", 1)` on the child.  The write lands in the
child's own `reqAttributes` map (a distinct heap object), the root's
`reqAttributes` stays empty, and the parent summary entry built from
the root therefore lacks the attribute — contradicting the code's own
doc comment ("adds an attribute for the parent request log") and the
repository's `Test_gcpLogger_AddRequestAttribute`, which asserts the
write appears in `l.root.reqAttributes`.  The console backend, by
contrast, routes the same call through `l.root`. -/
theorem gcp_child_addRequestAttribute_misses_root_map :
    (let g0 := newGCPLogger "t"
     let g1 := gcpWithAttribute g0.1 g0.2 "k" (.str "v")
     let g2 := gcpAttributerLogger g1.1 g1.2
     let g3 := gcpAddRequestAttribute g2.1 g2.2 "a" (.int 1)
     g2.2.reqAttrs ≠ g0.2.reqAttrs
     ∧ g3.store.get g2.2.reqAttrs = [("a", GoVal.int 1)]
     ∧ g3.store.get g0.2.reqAttrs = []
     ∧ gcpServeHTTPFinal true 200 g3 g0.2
       = some { severity := sevDefault, trace := "t",
                payload := [("message", GoVal.str parentLogEntry)] })
    ∧ (let c0 := newConsoleLogger
       let c1 := consoleWithAttributes c0.1 c0.2
       let c2 := consoleAttributerLogger c1.1 c1.2
       let c3 := consoleAddRequestAttribute c2.1 c2.2 "a" (.int 1)
       c3.store.get c3.reqAttrs = [("a", GoVal.int 1)]) := by
  refine ⟨⟨by decide, rfl, rfl, rfl⟩, rfl⟩

/-- C5: with `logAll=false`, the GCP and AWS middlewares emit no parent
entry exactly when the request's aggregate `logCount` is zero (i.e. no
log calls were made), and when at least one call was made they emit
exactly one parent entry whose severity is the status-adjusted
aggregate and whose attributes come from the root's `reqAttributes`. -/
theorem logAll_false_emits_iff_logs_were_made (status : Int) (t : String)
    (gcalls : List (GcpLogger × LogCall × GoVal))
    (acalls : List (AwsLogger × LogCall)) :
    (gcpServeHTTPFinal false status (gcpRun (newGCPLogger t).1 gcalls)
        (newGCPLogger t).2 = none ↔ gcalls = [])
    ∧ (awsServeHTTPFinal false status (awsRun (newAWSLogger t).1 acalls)
        (newAWSLogger t).2 = none ↔ acalls = [])
    ∧ (∀ gst groot, gst.logCount ≠ 0 →
        gcpServeHTTPFinal false status gst groot
          = some { severity := if 399 < status
                               then max gst.maxSeverity sevError
                               else gst.maxSeverity,
                   trace := groot.traceID,
                   payload := mapUpsert
                     (mapCopyInto [] (gst.store.get groot.reqAttrs)) "message"
                     (.str parentLogEntry) })
    ∧ (∀ ast aroot, ast.logCount ≠ 0 →
        awsServeHTTPFinal false status ast aroot
          = some { level := if 399 < status
                            then max ast.maxLevel slogLevelError
                            else ast.maxLevel,
                   reqAttrs := ast.store.get aroot.reqAttrs }) := by
  refine ⟨?_, ?_, ?_, ?_⟩
  · have hc : (gcpRun (newGCPLogger t).1 gcalls).logCount = gcalls.length := by
      rw [gcpRun_logCount]
      exact Nat.zero_add _
    by_cases h : gcalls = []
    · subst h
      simp [gcpServeHTTPFinal, hc]
    · have : gcalls.length ≠ 0 := by
        simpa using fun hl => h (List.length_eq_zero.mp hl)
      simp [gcpServeHTTPFinal, hc, this, h]
  · have hc : (awsRun (newAWSLogger t).1 acalls).logCount = acalls.length := by
      rw [awsRun_logCount]
      exact Nat.zero_add _
    by_cases h : acalls = []
    · subst h
      simp [awsServeHTTPFinal, hc]
    · have : acalls.length ≠ 0 := by
        simpa using fun hl => h (List.length_eq_zero.mp hl)
      simp [awsServeHTTPFinal, hc, this, h]
  · intro gst groot h
    simp only [gcpServeHTTPFinal, Bool.not_false, true_and, h, if_false]
    by_cases h3 : 399 < status
    · by_cases h2 : gst.maxSeverity < sevError
      · simp only [h3, h2, and_self, if_true, true_and]
        have : max gst.maxSeverity sevError = sevError := by
          simp only [sevError] at h2 ⊢
          omega
        rw [this]
      · simp only [h3, h2, and_false, if_false, if_true]
        have : max gst.maxSeverity sevError = gst.maxSeverity := by
          simp only [sevError] at h2 ⊢
          omega
        rw [this]
    · simp [h3]
  · intro ast aroot h
    simp only [awsServeHTTPFinal, Bool.not_false, true_and, h, if_false]
    by_cases h3 : 399 < status
    · by_cases h2 : ast.maxLevel < slogLevelError
      · simp only [h3, h2, and_self, if_true, true_and]
        have : max ast.maxLevel slogLevelError = slogLevelError := by
          simp only [slogLevelError] at h2 ⊢
          omega
        rw [this]
      · simp only [h3, h2, and_false, if_false, if_true]
        have : max ast.maxLevel slogLevelError = ast.maxLevel := by
          simp only [slogLevelError] at h2 ⊢
          omega
        rw [this]
    · simp [h3]

/-- C6: deriving a child from any node — seed a builder from the node,
add pairs, call `Logger()` — yields a child whose attribute map is the
node's map plus the added pairs (applying the GCP reserved-key rename;
a later addition at an existing key overwrites it), while the node's
own attribute map object is left unchanged by the builder and by the
child; the console and GCP derivation paths are both covered, and the
overwrite-on-duplicate law for map assignment is stated explicitly. -/
theorem child_attributes_extend_parent_without_mutation
    (cst : ConsoleSt) (l : ConsoleNode) (cps : List (String × GoVal))
    (hcv : l.attrs < cst.store.next)
    (hcnd : NodupKeys (cst.store.get l.attrs))
    (gst : GcpSt) (gl : GcpLogger) (k0 : String) (v0 : GoVal)
    (gps : List (String × GoVal))
    (hgv : gl.attrs < gst.store.next)
    (hgnd : NodupKeys (gst.store.get gl.attrs)) :
    ((consoleAttributerLogger
        (cps.foldl
          (fun s p =>
            consoleAddAttribute s (consoleWithAttributes cst l).2 p.1 p.2)
          (consoleWithAttributes cst l).1)
        (consoleWithAttributes cst l).2).1.store.get
      (consoleAttributerLogger
        (cps.foldl
          (fun s p =>
            consoleAddAttribute s (consoleWithAttributes cst l).2 p.1 p.2)
          (consoleWithAttributes cst l).1)
        (consoleWithAttributes cst l).2).2.attrs
      = cps.foldl (fun m p => mapUpsert m p.1 p.2) (cst.store.get l.attrs))
    ∧ ((consoleAttributerLogger
        (cps.foldl
          (fun s p =>
            consoleAddAttribute s (consoleWithAttributes cst l).2 p.1 p.2)
          (consoleWithAttributes cst l).1)
        (consoleWithAttributes cst l).2).1.store.get l.attrs
      = cst.store.get l.attrs)
    ∧ ((gcpAttributerLogger
        (gps.foldl
          (fun s p =>
            gcpAddAttribute s (gcpWithAttribute gst gl k0 v0).2 p.1 p.2)
          (gcpWithAttribute gst gl k0 v0).1)
        (gcpWithAttribute gst gl k0 v0).2).1.store.get
      (gcpAttributerLogger
        (gps.foldl
          (fun s p =>
            gcpAddAttribute s (gcpWithAttribute gst gl k0 v0).2 p.1 p.2)
          (gcpWithAttribute gst gl k0 v0).1)
        (gcpWithAttribute gst gl k0 v0).2).2.attrs
      = gps.foldl (fun m p => mapUpsert m (rsvdRename gcpRsvdKeys p.1) p.2)
          (mapUpsert (gst.store.get gl.attrs) (rsvdRename gcpRsvdKeys k0) v0))
    ∧ ((gcpAttributerLogger
        (gps.foldl
          (fun s p =>
            gcpAddAttribute s (gcpWithAttribute gst gl k0 v0).2 p.1 p.2)
          (gcpWithAttribute gst gl k0 v0).1)
        (gcpWithAttribute gst gl k0 v0).2).1.store.get gl.attrs
      = gst.store.get gl.attrs)
    ∧ (∀ m k v₁ v₂, mapUpsert (mapUpsert m k v₁) k v₂ = mapUpsert m k v₂) := by
  refine ⟨?_, ?_, ?_, ?_, fun m k v₁ v₂ => mapUpsert_mapUpsert_same m k v₁ v₂⟩
  · rw [consoleAdds_eq]
    simp only [consoleWithAttributes, consoleAttributerLogger, consoleNewChild]
    rw [Store.get_put_self, Store.get_alloc_self,
      Store.get_alloc_ne _ _ _ (by
        rw [Store.alloc_snd, Store.next_writeList, Store.next_alloc]
        omega),
      Store.get_writeList_self, Store.get_alloc_self,
      mapCopyInto_nil _ hcnd]
    have hnd2 : NodupKeys
        (cps.foldl (fun m p => mapUpsert m p.1 p.2) (cst.store.get l.attrs)) := by
      have := nodupKeys_foldl_mapUpsert cps (cst.store.get l.attrs)
        (fun k => k) hcnd
      simpa using this
    have hbeta : (cps.foldl
          (fun m p => mapUpsert m ((fun k => k) p.1) p.2)
          (cst.store.get l.attrs))
        = cps.foldl (fun m p => mapUpsert m p.1 p.2) (cst.store.get l.attrs) := by
      simp
    rw [hbeta, mapCopyInto_nil _ hnd2]
  · rw [consoleAdds_eq]
    simp only [consoleWithAttributes, consoleAttributerLogger, consoleNewChild]
    rw [Store.get_put_ne _ _ _ _ (by
        rw [Store.alloc_snd, Store.next_writeList, Store.next_alloc]
        omega),
      Store.get_alloc_ne _ _ _ (by
        rw [Store.next_writeList, Store.next_alloc]
        omega),
      Store.get_writeList_ne _ _ _ _ _ (by
        rw [Store.alloc_snd]
        omega),
      Store.get_alloc_ne _ _ _ (by omega)]
  · rw [gcpAdds_eq]
    simp only [gcpWithAttribute, gcpAttributerLogger, gcpNewChild]
    rw [Store.get_put_self, Store.get_alloc_self,
      Store.get_alloc_ne _ _ _ (by
        rw [Store.alloc_snd, Store.next_alloc, Store.next_writeList,
          Store.next_alloc]
        omega),
      Store.get_alloc_ne _ _ _ (by
        rw [Store.alloc_snd, Store.next_writeList, Store.next_alloc]
        omega),
      Store.get_writeList_self, Store.get_alloc_self,
      mapCopyInto_nil _ hgnd]
    have hnd2 : NodupKeys
        (gps.foldl
          (fun m p => mapUpsert m (rsvdRename gcpRsvdKeys p.1) p.2)
          (mapUpsert (gst.store.get gl.attrs)
            (rsvdRename gcpRsvdKeys k0) v0)) :=
      nodupKeys_foldl_mapUpsert gps _ (rsvdRename gcpRsvdKeys)
        (nodupKeys_mapUpsert _ _ _ hgnd)
    rw [mapCopyInto_nil _ hnd2]
  · rw [gcpAdds_eq]
    simp only [gcpWithAttribute, gcpAttributerLogger, gcpNewChild]
    rw [Store.get_put_ne _ _ _ _ (by
        rw [Store.alloc_snd, Store.next_alloc, Store.next_writeList,
          Store.next_alloc]
        omega),
      Store.get_alloc_ne _ _ _ (by
        rw [Store.next_alloc, Store.next_writeList, Store.next_alloc]
        omega),
      Store.get_alloc_ne _ _ _ (by
        rw [Store.next_writeList, Store.next_alloc]
        omega),
      Store.get_writeList_ne _ _ _ _ _ (by
        rw [Store.alloc_snd]
        omega),
      Store.get_alloc_ne _ _ _ (by omega)]

/-- C6 witness: on a fresh console root with one added pair and a fresh
GCP root, the derivation hypotheses hold and the parent map is
untouched. -/
theorem child_attributes_extend_parent_without_mutation_witness :
    newConsoleLogger.2.attrs < newConsoleLogger.1.store.next
    ∧ NodupKeys (newConsoleLogger.1.store.get newConsoleLogger.2.attrs)
    ∧ (consoleAttributerLogger
        (List.foldl
          (fun s p =>
            consoleAddAttribute s
              (consoleWithAttributes newConsoleLogger.1 newConsoleLogger.2).2
              p.1 p.2)
          (consoleWithAttributes newConsoleLogger.1 newConsoleLogger.2).1
          [("k", GoVal.str "v")])
        (consoleWithAttributes newConsoleLogger.1
          newConsoleLogger.2).2).1.store.get newConsoleLogger.2.attrs
      = newConsoleLogger.1.store.get newConsoleLogger.2.attrs :=
  ⟨by decide, by decide,
   (child_attributes_extend_parent_without_mutation newConsoleLogger.1
      newConsoleLogger.2 [("k", GoVal.str "v")] (by decide) (by decide)
      (newGCPLogger "t").1 (newGCPLogger "t").2 "k" (GoVal.str "v") []
      (by decide) (by decide)).2.1⟩

/-- C7: on every backend, `AddRequestAttribute` called with a key from
that backend's reserved list stores the value under the key prefixed
with `custom_` and leaves no entry under the literal reserved key (the
reserved key is absent afterwards whenever it was absent before, which
is always the case for maps built through `AddRequestAttribute`). -/
theorem reserved_request_keys_renamed_with_custom (k : String) (v : GoVal)
    (cst : ConsoleSt) (cl : ConsoleNode) (gst : GcpSt) (gl : GcpLogger)
    (ast : AwsSt) (al : AwsLogger) :
    (k ∈ cslRsvdReqKeys →
      mapGet (cst.store.get cst.reqAttrs) k = none →
      mapGet ((consoleAddRequestAttribute cst cl k v).store.get cst.reqAttrs)
          k = none
      ∧ mapGet ((consoleAddRequestAttribute cst cl k v).store.get cst.reqAttrs)
          (customPre ++ k) = some v)
    ∧ (k ∈ gcpRsvdKeys →
      mapGet (gst.store.get gl.reqAttrs) k = none →
      mapGet ((gcpAddRequestAttribute gst gl k v).store.get gl.reqAttrs)
          k = none
      ∧ mapGet ((gcpAddRequestAttribute gst gl k v).store.get gl.reqAttrs)
          (customPre ++ k) = some v)
    ∧ (k ∈ awsRsvdReqKeys →
      mapGet (ast.store.get al.reqAttrs) k = none →
      mapGet ((awsAddRequestAttribute ast al k v).store.get al.reqAttrs)
          k = none
      ∧ mapGet ((awsAddRequestAttribute ast al k v).store.get al.reqAttrs)
          (customPre ++ k) = some v) := by
  have hne : customPre ++ k ≠ k := by
    intro h
    have hlen := congrArg String.length h
    rw [String.length_append] at hlen
    have hc : customPre.length = 7 := rfl
    omega
  have hkey : ∀ rsvd : List String, k ∈ rsvd →
      rsvdRename rsvd k = customPre ++ k := by
    intro rsvd hk
    simp [rsvdRename, hk]
  refine ⟨fun hk h0 => ?_, fun hk h0 => ?_, fun hk h0 => ?_⟩
  · simp only [consoleAddRequestAttribute]
    rw [Store.get_write_self, hkey _ hk]
    exact ⟨by rw [mapGet_mapUpsert_ne _ _ _ _ (Ne.symm hne)]; exact h0,
      mapGet_mapUpsert_self ..⟩
  · simp only [gcpAddRequestAttribute]
    rw [Store.get_write_self, hkey _ hk]
    exact ⟨by rw [mapGet_mapUpsert_ne _ _ _ _ (Ne.symm hne)]; exact h0,
      mapGet_mapUpsert_self ..⟩
  · simp only [awsAddRequestAttribute]
    rw [Store.get_write_self, hkey _ hk]
    exact ⟨by rw [mapGet_mapUpsert_ne _ _ _ _ (Ne.symm hne)]; exact h0,
      mapGet_mapUpsert_self ..⟩

/-- C7 witness: on a fresh AWS root, adding the reserved HTTP-method key
stores it as `custom_http.method` and leaves the literal key absent. -/
theorem reserved_request_keys_renamed_with_custom_witness :
    "http.method" ∈ awsRsvdReqKeys
    ∧ mapGet ((newAWSLogger "t").1.store.get (newAWSLogger "t").2.reqAttrs)
        "http.method" = none
    ∧ mapGet ((awsAddRequestAttribute (newAWSLogger "t").1
          (newAWSLogger "t").2 "http.method" (GoVal.str "x")).store.get
        (newAWSLogger "t").2.reqAttrs) "http.method" = none
    ∧ mapGet ((awsAddRequestAttribute (newAWSLogger "t").1
          (newAWSLogger "t").2 "http.method" (GoVal.str "x")).store.get
        (newAWSLogger "t").2.reqAttrs) (customPre ++ "http.method")
      = some (GoVal.str "x") := by
  have h := (reserved_request_keys_renamed_with_custom "http.method"
    (GoVal.str "x") newConsoleLogger.1 newConsoleLogger.2
    (newGCPLogger "t").1 (newGCPLogger "t").2 (newAWSLogger "t").1
    (newAWSLogger "t").2).2.2 (by decide) (by decide)
  exact ⟨by decide, by decide, h.1, h.2⟩

/-- C5 witness: on a request with one Info call on the fresh GCP/AWS
roots and status 200, the theorem yields the concrete emission
decisions. -/
theorem logAll_false_emits_iff_logs_were_made_witness :
    (gcpRun (newGCPLogger "t").1
        [((newGCPLogger "t").2, LogCall.info, GoVal.str "m")]).logCount ≠ 0
    ∧ gcpServeHTTPFinal false 200
        (gcpRun (newGCPLogger "t").1
          [((newGCPLogger "t").2, LogCall.info, GoVal.str "m")])
        (newGCPLogger "t").2
      = some { severity := sevInfo, trace := "t",
               payload := [("message", GoVal.str parentLogEntry)] } := by
  have h := (logAll_false_emits_iff_logs_were_made 200 "t"
      [((newGCPLogger "t").2, LogCall.info, GoVal.str "m")]
      [((newAWSLogger "t").2, LogCall.info)]).2.2.1
    (gcpRun (newGCPLogger "t").1
      [((newGCPLogger "t").2, LogCall.info, GoVal.str "m")])
    (newGCPLogger "t").2 (by decide)
  refine ⟨by decide, ?_⟩
  rw [h]
  rfl

end LoggerModel
